import Mathlib

/-!
Verification development for the cloudflare-dyndns program (src/main.rs).

The program resolves the external IPv4 address of the host by querying a
fixed list of HTTP IP-echo services, extracting the first dotted-quad
regex match from each response body, and reconciling the result against a
Cloudflare DNS record.

Shallow embedding notes:
  - Machine integers are modelled as Nat; the u16 vote arithmetic of the
    quorum decision wraps, so the embedding inserts explicit mod 65536 at
    the operations the Rust code performs on u16 values.
  - The network is an oracle: each IP service is represented by the
    outcome the service would produce (transport error or a response
    body), and the Cloudflare API by the lists of zones and records its
    list endpoints would return. Functions that issue requests also
    return the number of requests issued.
  - The vote map is a std HashMap in the source. Its contents are
    modelled as an association list in first-insertion order; its
    iteration order is unspecified in Rust, so the decision step takes
    the iteration order as an explicit list constrained (in theorems) to
    be a permutation of the map contents.
  - The regex crate pattern from the source is a fixed literal,
    embedded as a specialised leftmost-first backtracking matcher. The
    character classes are restricted to ASCII, which covers every body
    considered here.
-/

namespace CloudflareDyndns

/-- An IPv4 address, four octets. Mirrors std::net::Ipv4Addr. -/
structure Ipv4Addr where
  a : Nat
  b : Nat
  c : Nat
  d : Nat
deriving DecidableEq, Repr

/-! ## The regex IPV4_MATCHER

Source: const IPV4_MATCHER = r"\b\d{1,3}(\.\d{1,3}){3}\b".
The matcher below implements leftmost-first matching of exactly this
pattern: earliest start position wins, and at a given position the
quantifiers are tried greedily (3 digits before 2 before 1), which is the
preference order of the regex backtracking semantics. -/

/-- Word character for the word boundary assertion, ASCII fragment of \w. -/
def isWordChar (c : Char) : Bool :=
  c.isAlphanum || c == '_'

/-- The character at index i, if any. -/
def charAt (s : List Char) (i : Nat) : Option Char :=
  (s.drop i).head?

/-- Is the character at index i an ASCII digit. -/
def isDigitAt (s : List Char) (i : Nat) : Bool :=
  match charAt s i with
  | some c => c.isDigit
  | none => false

/-- Are the n characters starting at index i all digits. -/
def digitsAt (s : List Char) : Nat → Nat → Bool
  | _, 0 => true
  | i, n + 1 => isDigitAt s i && digitsAt s (i + 1) n

/-- Is the character at index i a literal dot. -/
def isDotAt (s : List Char) (i : Nat) : Bool :=
  charAt s i == some '.'

/-- Word boundary before position i, given that the match starts with a
digit (a word character): it holds when i is the start of the string or
the preceding character is not a word character. -/
def boundaryBefore (s : List Char) (i : Nat) : Bool :=
  match i with
  | 0 => true
  | j + 1 =>
    match charAt s j with
    | some c => !isWordChar c
    | none => true

/-- Word boundary after a match ending just before position i, given that
the last matched character is a digit: it holds at end of string or when
the character at i is not a word character. -/
def boundaryAfter (s : List Char) (i : Nat) : Bool :=
  match charAt s i with
  | some c => !isWordChar c
  | none => true

/-- Lengths an octet group may take, in greedy preference order. -/
def octetLens : List Nat := [3, 2, 1]

/-- All length assignments for the four octet groups, in backtracking
preference order (leftmost quantifier most significant, longer first). -/
def lenCombos : List (Nat × Nat × Nat × Nat) :=
  octetLens.flatMap fun a =>
    octetLens.flatMap fun b =>
      octetLens.flatMap fun c =>
        octetLens.map fun d => (a, b, c, d)

/-- Does the dotted-quad shape with group lengths a, b, c, d occur at
position i. -/
def quadAt (s : List Char) (i a b c d : Nat) : Bool :=
  digitsAt s i a && isDotAt s (i + a) &&
  digitsAt s (i + a + 1) b && isDotAt s (i + a + 1 + b) &&
  digitsAt s (i + a + b + 2) c && isDotAt s (i + a + b + 2 + c) &&
  digitsAt s (i + a + b + c + 3) d

/-- Length of the pattern match starting at position i, if any, choosing
group lengths in greedy preference order. -/
def matchLenAt (s : List Char) (i : Nat) : Option Nat :=
  if boundaryBefore s i then
    lenCombos.findSome? fun q =>
      match q with
      | (a, b, c, d) =>
        if quadAt s i a b c d && boundaryAfter s (i + a + b + c + d + 3) then
          some (a + b + c + d + 3)
        else
          none
  else
    none

/-- The leftmost match of the pattern: start position and length. -/
def firstMatch (s : List Char) : Option (Nat × Nat) :=
  (List.range (s.length + 1)).findSome? fun i =>
    (matchLenAt s i).map fun l => (i, l)

/-- Source: extract_ip_from_body. captures(body) yields the leftmost
match and captures[0] is its full text. -/
def extract_ip_from_body (body : String) : Option String :=
  (firstMatch body.data).map fun p =>
    String.mk ((body.data.drop p.1).take p.2)

/-! ## IPv4 parsing

Source: parse_ip calls str::parse::<Ipv4Addr>, the strict std parser:
exactly four groups separated by dots, each 1 to 3 digits, no leading
zero in a multi-digit group, value at most 255, whole string consumed. -/

/-- Split a character list on literal dots; n dots yield n + 1 groups. -/
def splitOnDot : List Char → List (List Char)
  | [] => [[]]
  | c :: rest =>
    let r := splitOnDot rest
    if c = '.' then
      [] :: r
    else
      match r with
      | [] => [[c]]
      | g :: gs => (c :: g) :: gs

/-- Numeric value of a digit group. -/
def digitsVal (cs : List Char) : Nat :=
  cs.foldl (fun acc c => acc * 10 + (c.toNat - 48)) 0

/-- Parse one octet group under the strict std rules. -/
def parseOctet (cs : List Char) : Option Nat :=
  if cs.isEmpty then none
  else if !cs.all Char.isDigit then none
  else if 3 < cs.length then none
  else if charAt cs 0 == some '0' && 1 < cs.length then none
  else if digitsVal cs ≤ 255 then some (digitsVal cs) else none

/-- The strict std IPv4 text parser. -/
def parseIpv4String (s : String) : Option Ipv4Addr :=
  match splitOnDot s.data with
  | [a, b, c, d] =>
    match parseOctet a, parseOctet b, parseOctet c, parseOctet d with
    | some x, some y, some z, some w => some ⟨x, y, z, w⟩
    | _, _, _, _ => none
  | _ => none

/-- Lenient reading of one digit group: leading zeros allowed. Follows
the words of the spec, not the source; used only to state when two
candidate texts denote the same address. -/
def parseOctetLenient (cs : List Char) : Option Nat :=
  if cs.isEmpty then none
  else if !cs.all Char.isDigit then none
  else if digitsVal cs ≤ 255 then some (digitsVal cs) else none

/-- The address a dotted-quad text denotes, reading groups numerically so
that leading zeros do not matter. Follows the words of the spec (the
canonical value behind a candidate text); the source has no counterpart
of this function. -/
def specDottedQuadValue (s : String) : Option Ipv4Addr :=
  match splitOnDot s.data with
  | [a, b, c, d] =>
    match parseOctetLenient a, parseOctetLenient b,
        parseOctetLenient c, parseOctetLenient d with
    | some x, some y, some z, some w => some ⟨x, y, z, w⟩
    | _, _, _, _ => none
  | _ => none

/-! ## Resolver

The outcome each IP service would produce is an oracle value: either a
transport or timeout failure of client.get(url).send().and_then(text), or
the text of the response body. -/

/-- Outcome of the HTTP GET against one IP service. -/
inductive SourceResult where
  | transportErr
  | body (text : String)
deriving DecidableEq, Repr

/-- Which error path a resolution pass took. The source reports errors as
strings; this enum distinguishes the three distinct resolver-level error
messages of the source. -/
inductive ResolveError where
  | parseFailure (text : String)
  | allSourcesFailed
  | noQuorum
deriving DecidableEq, Repr

/-- Source: parse_ip, with Err carrying the offending text. -/
def parse_ip (s : String) : Except ResolveError Ipv4Addr :=
  match parseIpv4String s with
  | some ip => .ok ip
  | none => .error (.parseFailure s)

/-- The candidate string a source outcome yields: the first regex match
of the body when the request succeeded, none on transport failure or when
the body has no match. -/
def extractedString : SourceResult → Option String
  | .transportErr => none
  | .body text => extract_ip_from_body text

/-- The fixed source list of the program. -/
def IP_SERVICE_URLS : List String :=
  ["https://checkip.amazonaws.com/",
   "https://httpbin.org/ip",
   "https://icanhazip.com/",
   "https://ipecho.net/plain",
   "https://ipinfo.io/ip",
   "http://checkip.dyndns.com/",
   "http://whatismyip.akamai.com/"]

/-- The first-success loop. One request is issued per source visited; the
counter accumulates the number of requests issued. On the first extracted
candidate the loop returns parse_ip of it immediately; transport failures
and match-free bodies are skipped. -/
def firstSuccessGo : List SourceResult → Nat → Except ResolveError Ipv4Addr × Nat
  | [], n => (.error .allSourcesFailed, n)
  | o :: rest, n =>
    match extractedString o with
    | some ip => (parse_ip ip, n + 1)
    | none => firstSuccessGo rest (n + 1)

/-- Source: determine_external_ip_without_verification, over the list of
per-source outcomes (one entry per URL of the source list, in order).
Also returns the number of HTTP requests issued. -/
def determine_external_ip_without_verification (outcomes : List SourceResult) :
    Except ResolveError Ipv4Addr × Nat :=
  firstSuccessGo outcomes 0

/-! ## Quorum mode

Source: determine_external_ip_with_verification. The vote map contents
are deterministic (key, u16 count); HashMap iteration order is not, so
the decision step receives the iteration order explicitly. -/

/-- Source: votes.entry(ip).or_insert(0) += 1, on the association-list
model of the map contents (keys in first-insertion order, u16 counts). -/
def addVote (votes : List (String × Nat)) (ip : String) : List (String × Nat) :=
  if votes.any fun p => p.1 == ip then
    votes.map fun p => if p.1 == ip then (p.1, (p.2 + 1) % 65536) else p
  else
    votes ++ [(ip, 1)]

/-- One iteration of the polling loop of the quorum mode: an outcome
that yields a candidate adds one vote under the extracted string, other
outcomes leave the map unchanged. -/
def voteStep (votes : List (String × Nat)) (o : SourceResult) : List (String × Nat) :=
  match extractedString o with
  | some ip => addVote votes ip
  | none => votes

/-- The vote map contents after the polling loop: every source is
queried, and each outcome that yields a candidate adds one vote under the
extracted string. -/
def buildVotes (outcomes : List SourceResult) : List (String × Nat) :=
  outcomes.foldl voteStep []

/-- The keys of the vote map, in first-insertion order. -/
def voteKeys (votes : List (String × Nat)) : List String :=
  votes.map fun p => p.1

/-- Source: votes.iter().max_by_key(tally), which keeps the last element
of the iteration when several tie for the maximum. -/
def topVote (p : String × Nat) (rest : List (String × Nat)) : String × Nat :=
  rest.foldl (fun best r => if best.2 ≤ r.2 then r else best) p

/-- The decision step over the vote entries in iteration order: zero
keys fail, a single key is parsed directly, and otherwise the top tally
is compared against total * 2 / 3 in u16 arithmetic. -/
def decideVotes (order : List (String × Nat)) : Except ResolveError Ipv4Addr :=
  match order with
  | [] => .error .allSourcesFailed
  | [p] => parse_ip p.1
  | p :: q :: rest =>
    let total := (((p :: q :: rest).map fun r => r.2).sum) % 65536
    let top := topVote p (q :: rest)
    if total * 2 % 65536 / 3 ≤ top.2 then
      parse_ip top.1
    else
      .error .noQuorum

/-- Source: determine_external_ip_with_verification. Every source is
queried (one request each); the order argument is the iteration order of
the vote map, constrained in the theorems to be a permutation of
buildVotes outcomes. -/
def determine_external_ip_with_verification (outcomes : List SourceResult)
    (order : List (String × Nat)) : Except ResolveError Ipv4Addr × Nat :=
  (decideVotes order, outcomes.length)

/-! ## Cloudflare data model and reconciler

The cloudflare crate record and request types, restricted to the fields
the program reads or writes. DnsContent is restricted to a subset of the
record types; every non-A variant is handled identically by the program. -/

/-- Record content. The A variant carries the address; other variants
carry their content as opaque text. -/
inductive DnsContent where
  | A (content : Ipv4Addr)
  | AAAA (content : String)
  | CNAME (content : String)
  | TXT (content : String)
deriving DecidableEq, Repr

/-- A DNS record as returned by the list endpoint, restricted to the
fields the program touches. -/
structure DnsRecord where
  id : String
  name : String
  content : DnsContent
  ttl : Nat
  proxied : Bool
deriving DecidableEq, Repr

/-- The params of dns::UpdateDnsRecord as built by the program. -/
structure UpdateDnsRecordParams where
  name : String
  content : DnsContent
  ttl : Option Nat
  proxied : Option Bool
deriving DecidableEq, Repr

/-- A zone as returned by the ListZones endpoint. -/
structure Zone where
  id : String
  name : String
deriving DecidableEq, Repr

/-- The parsed command-line options the embedded logic reads. -/
structure Options where
  dry_run : Bool
  ip_timeout : Nat
  verify : Bool
  zone_id : Option String
  zone_name : Option String
  dns_record : String
deriving DecidableEq, Repr

/-- Source: update_dns_record, pure part: the identifier and params of
the update request it issues. The source sets ttl and proxied to None. -/
def update_dns_record (current_record : DnsRecord) (new_ip : Ipv4Addr) :
    String × UpdateDnsRecordParams :=
  (current_record.id,
   { name := current_record.name
     content := .A new_ip
     ttl := none
     proxied := none })

/-- The guard of the match in main: DnsContent::A { content: ip } if
ip == external_ip. -/
def recordIsCurrent (content : DnsContent) (external_ip : Ipv4Addr) : Bool :=
  match content with
  | .A ip => ip == external_ip
  | _ => false

/-- Terminal outcome of a successful run. -/
inductive MainOutcome where
  | noChange
  | wouldUpdate (ip : Ipv4Addr)
  | updated (record_id : String) (params : UpdateDnsRecordParams)
deriving DecidableEq, Repr

/-- The match on current_record.content at the end of main: an A record
equal to the resolved address is left alone; anything else is reported in
dry-run mode and overwritten otherwise. -/
def reconcileAction (current_record : DnsRecord) (external_ip : Ipv4Addr)
    (dry_run : Bool) : MainOutcome :=
  if recordIsCurrent current_record.content external_ip then
    .noChange
  else if dry_run then
    .wouldUpdate external_ip
  else
    let u := update_dns_record current_record external_ip
    .updated u.1 u.2

/-- Number of write requests an outcome issues. -/
def writeCount : MainOutcome → Nat
  | .updated _ _ => 1
  | _ => 0

/-- Source: find_zone_id. A configured zone id is returned without any
request; otherwise one ListZones request is issued and the response is
searched for the first zone with the requested name. Returns the result
and the number of requests issued. -/
def find_zone_id (options : Options) (zoneResponse : List Zone) :
    Except String String × Nat :=
  match options.zone_id with
  | some id => (.ok id, 0)
  | none =>
    match options.zone_name with
    | none => (.error "Neither Zone ID or Zone Name was specified", 0)
    | some name =>
      match zoneResponse.find? fun z => z.name == name with
      | some z => (.ok z.id, 1)
      | none =>
        (.error ("Failed to retrieve zone ID: No ones with name " ++ name ++ " found"), 1)

/-- Source: fetch_current_dns_record. One ListDnsRecords request is
issued; the first record of the response whose name equals the requested
name is returned, regardless of its type. -/
def fetch_current_dns_record (recordsResponse : List DnsRecord)
    (record_name : String) : Except String DnsRecord :=
  match recordsResponse.find? fun r => r.name == record_name with
  | some r => .ok r
  | none => .error ("Could not find A record for " ++ record_name)

/-- The error messages of the resolver error paths, as printed by the
source (abbreviated to their fixed fragments). -/
def resolveErrorMessage : ResolveError → String
  | .parseFailure text => "Failed to parse IP address " ++ text
  | .allSourcesFailed => "All sources failed"
  | .noQuorum => "Could not determine IP"

/-- Source: determine_external_ip, dispatching on the verify flag. -/
def determine_external_ip (options : Options) (outcomes : List SourceResult)
    (order : List (String × Nat)) : Except ResolveError Ipv4Addr × Nat :=
  if options.verify then
    determine_external_ip_with_verification outcomes order
  else
    determine_external_ip_without_verification outcomes

/-- Source: main, after argument parsing. The timeout guard runs first;
then the zone id is resolved, the current record fetched (one request),
the external IP determined, and the record reconciled. The second
component counts every network request issued (Cloudflare and IP
services alike); provider reads and the write are assumed to succeed. -/
def mainRun (options : Options) (zoneResponse : List Zone)
    (recordsResponse : List DnsRecord) (outcomes : List SourceResult)
    (order : List (String × Nat)) : Except String MainOutcome × Nat :=
  if options.ip_timeout == 0 then
    (.error "A timeout of 0 seconds would mean no request could ever work.", 0)
  else
    match find_zone_id options zoneResponse with
    | (.error e, n) => (.error e, n)
    | (.ok _zone_id, n1) =>
      match fetch_current_dns_record recordsResponse options.dns_record with
      | .error e => (.error e, n1 + 1)
      | .ok current_record =>
        match determine_external_ip options outcomes order with
        | (.error e, n2) => (.error (resolveErrorMessage e), n1 + 1 + n2)
        | (.ok external_ip, n2) =>
          let action := reconcileAction current_record external_ip options.dry_run
          (.ok action, n1 + 1 + n2 + writeCount action)

/-! ## Helper lemmas -/

theorem firstSuccessGo_append_skip (pre rest : List SourceResult) (n : Nat)
    (h : ∀ x ∈ pre, extractedString x = none) :
    firstSuccessGo (pre ++ rest) n = firstSuccessGo rest (n + pre.length) := by
  induction pre generalizing n with
  | nil => simp
  | cons o pretail ih =>
    have ho : extractedString o = none := h o (List.mem_cons_self o pretail)
    have htail : ∀ x ∈ pretail, extractedString x = none :=
      fun x hx => h x (List.mem_cons_of_mem o hx)
    simp only [List.cons_append, firstSuccessGo, ho, List.append_eq]
    rw [ih (n + 1) htail]
    congr 1
    simp only [List.length_cons]
    omega

theorem firstSuccess_found (pre rest : List SourceResult) (o : SourceResult) (s : String)
    (hpre : ∀ x ∈ pre, extractedString x = none)
    (ho : extractedString o = some s) :
    determine_external_ip_without_verification (pre ++ o :: rest) =
      (parse_ip s, pre.length + 1) := by
  unfold determine_external_ip_without_verification
  rw [firstSuccessGo_append_skip pre (o :: rest) 0 hpre]
  simp [firstSuccessGo, ho]

theorem parse_ip_ne_noQuorum (s : String) : parse_ip s ≠ .error .noQuorum := by
  unfold parse_ip
  cases h : parseIpv4String s with
  | none =>
    intro hc
    injection hc with hc2
    exact ResolveError.noConfusion hc2
  | some ip =>
    intro hc
    exact Except.noConfusion hc

theorem voteKeys_addVote (votes : List (String × Nat)) (ip : String) :
    voteKeys (addVote votes ip) =
      if ip ∈ voteKeys votes then voteKeys votes else voteKeys votes ++ [ip] := by
  have hmem : (votes.any fun p => p.1 == ip) = true ↔ ip ∈ voteKeys votes := by
    rw [List.any_eq_true]
    unfold voteKeys
    rw [List.mem_map]
    constructor
    · rintro ⟨p, hp, he⟩
      exact ⟨p, hp, beq_iff_eq.mp he⟩
    · rintro ⟨p, hp, he⟩
      exact ⟨p, hp, beq_iff_eq.mpr he⟩
  unfold addVote
  by_cases h : ip ∈ voteKeys votes
  · rw [if_pos (hmem.mpr h), if_pos h]
    unfold voteKeys
    rw [List.map_map]
    apply List.map_congr_left
    intro p _
    simp only [Function.comp_apply]
    split <;> rfl
  · rw [if_neg (fun hc => h (hmem.mp hc)), if_neg h]
    unfold voteKeys
    simp

theorem voteKeys_addVote_mem (votes : List (String × Nat)) (ip s : String) :
    s ∈ voteKeys (addVote votes ip) ↔ s ∈ voteKeys votes ∨ s = ip := by
  rw [voteKeys_addVote]
  by_cases h : ip ∈ voteKeys votes
  · rw [if_pos h]
    constructor
    · exact fun hs => Or.inl hs
    · rintro (hs | rfl)
      · exact hs
      · exact h
  · rw [if_neg h]
    simp

theorem voteKeys_addVote_nodup (votes : List (String × Nat)) (ip : String)
    (h : (voteKeys votes).Nodup) : (voteKeys (addVote votes ip)).Nodup := by
  rw [voteKeys_addVote]
  by_cases hm : ip ∈ voteKeys votes
  · rwa [if_pos hm]
  · rw [if_neg hm]
    simp [List.nodup_append, h, hm]

theorem voteKeys_foldl_mem (outcomes : List SourceResult) :
    ∀ (acc : List (String × Nat)) (s : String),
      s ∈ voteKeys (outcomes.foldl voteStep acc) ↔
        s ∈ voteKeys acc ∨ ∃ o ∈ outcomes, extractedString o = some s := by
  induction outcomes with
  | nil => intro acc s; simp
  | cons o rest ih =>
    intro acc s
    simp only [List.foldl_cons]
    rw [ih]
    unfold voteStep
    cases ho : extractedString o with
    | none =>
      simp only [List.exists_mem_cons_iff, ho]
      constructor
      · rintro (h | h)
        · exact Or.inl h
        · exact Or.inr (Or.inr h)
      · rintro (h | h | h)
        · exact Or.inl h
        · exact absurd h (by simp)
        · exact Or.inr h
    | some ip =>
      rw [voteKeys_addVote_mem]
      simp only [List.exists_mem_cons_iff, ho]
      constructor
      · rintro ((h | rfl) | h)
        · exact Or.inl h
        · exact Or.inr (Or.inl rfl)
        · exact Or.inr (Or.inr h)
      · rintro (h | h | h)
        · exact Or.inl (Or.inl h)
        · exact Or.inl (Or.inr (Option.some_injective _ h.symm))
        · exact Or.inr h

theorem buildVotes_key_mem (outcomes : List SourceResult) (s : String) :
    s ∈ voteKeys (buildVotes outcomes) ↔ ∃ o ∈ outcomes, extractedString o = some s := by
  unfold buildVotes
  rw [voteKeys_foldl_mem]
  simp [voteKeys]

theorem voteKeys_foldl_nodup (outcomes : List SourceResult) :
    ∀ acc : List (String × Nat),
      (voteKeys acc).Nodup → (voteKeys (outcomes.foldl voteStep acc)).Nodup := by
  induction outcomes with
  | nil => intro acc h; simpa using h
  | cons o rest ih =>
    intro acc h
    simp only [List.foldl_cons]
    apply ih
    unfold voteStep
    cases ho : extractedString o with
    | none => exact h
    | some ip => exact voteKeys_addVote_nodup acc ip h

theorem buildVotes_keys_nodup (outcomes : List SourceResult) :
    (voteKeys (buildVotes outcomes)).Nodup := by
  unfold buildVotes
  exact voteKeys_foldl_nodup outcomes [] (by simp [voteKeys])

theorem buildVotes_all_none :
    ∀ outcomes : List SourceResult,
      (∀ o ∈ outcomes, extractedString o = none) → buildVotes outcomes = [] := by
  intro outcomes
  induction outcomes with
  | nil => intro _; rfl
  | cons o rest ih =>
    intro h
    unfold buildVotes at ih ⊢
    simp only [List.foldl_cons]
    unfold voteStep
    rw [h o (List.mem_cons_self o rest)]
    exact ih fun x hx => h x (List.mem_cons_of_mem o hx)

theorem topVote_mem (p : String × Nat) (rest : List (String × Nat)) :
    topVote p rest ∈ p :: rest := by
  induction rest generalizing p with
  | nil => simp [topVote]
  | cons q rs ih =>
    have h := ih (if p.2 ≤ q.2 then q else p)
    unfold topVote at h ⊢
    simp only [List.foldl_cons]
    rcases List.mem_cons.mp h with h1 | h2
    · rw [h1]
      by_cases hc : p.2 ≤ q.2 <;> simp [hc]
    · exact List.mem_cons_of_mem p (List.mem_cons_of_mem q h2)

theorem topVote_le (p : String × Nat) (rest : List (String × Nat)) :
    ∀ r ∈ p :: rest, r.2 ≤ (topVote p rest).2 := by
  induction rest generalizing p with
  | nil =>
    intro r hr
    have hrp : r = p := by simpa using hr
    rw [hrp]
    simp [topVote]
  | cons q rs ih =>
    intro r hr
    unfold topVote
    simp only [List.foldl_cons]
    have hstep1 : p.2 ≤ (if p.2 ≤ q.2 then q else p).2 := by
      by_cases hc : p.2 ≤ q.2 <;> simp [hc]
    have hstep2 : q.2 ≤ (if p.2 ≤ q.2 then q else p).2 := by
      by_cases hc : p.2 ≤ q.2 <;> simp [hc]
      omega
    have htop := ih (if p.2 ≤ q.2 then q else p) (if p.2 ≤ q.2 then q else p)
      (List.mem_cons_self _ _)
    unfold topVote at htop
    rcases List.mem_cons.mp hr with h1 | hr2
    · rw [h1]
      exact le_trans hstep1 htop
    · rcases List.mem_cons.mp hr2 with h2 | hr3
      · rw [h2]
        exact le_trans hstep2 htop
      · exact ih (if p.2 ≤ q.2 then q else p) r (List.mem_cons_of_mem _ hr3)

theorem topVote_unique (p t : String × Nat) (rest : List (String × Nat))
    (hmem : t ∈ p :: rest) (hmax : ∀ q ∈ p :: rest, q ≠ t → q.2 < t.2) :
    topVote p rest = t := by
  by_contra hne
  have h1 : (topVote p rest).2 < t.2 := hmax _ (topVote_mem p rest) hne
  have h2 : t.2 ≤ (topVote p rest).2 := topVote_le p rest t hmem
  omega

theorem decideVotes_cons_cons (p q : String × Nat) (rest : List (String × Nat)) :
    decideVotes (p :: q :: rest) =
      (if (((p :: q :: rest).map fun r => r.2).sum % 65536) * 2 % 65536 / 3 ≤
          (topVote p (q :: rest)).2 then
        parse_ip (topVote p (q :: rest)).1
       else
        .error .noQuorum) := rfl

/-! ## Claims -/

/-- C1, counterexample: for the fetched record with ttl 120 and proxied
true, the update request built by update_dns_record does not carry those
values: both fields are None. -/
theorem c1_counterexample :
    (update_dns_record ⟨"rec1", "example.com", .A ⟨203, 0, 113, 1⟩, 120, true⟩
        ⟨203, 0, 113, 9⟩).2.ttl ≠ some 120 ∧
    (update_dns_record ⟨"rec1", "example.com", .A ⟨203, 0, 113, 1⟩, 120, true⟩
        ⟨203, 0, 113, 9⟩).2.proxied ≠ some true := by
  constructor
  · intro hc
    exact Option.noConfusion hc
  · intro hc
    exact Option.noConfusion hc

/-- C1 (corrected): the update request carries the identifier and name of
the fetched record and the new address, but its ttl and proxied fields are
None, not the values of the fetched record. -/
theorem c1_update_sends_none_for_ttl_and_proxied (rec0 : DnsRecord) (new_ip : Ipv4Addr) :
    (update_dns_record rec0 new_ip).1 = rec0.id ∧
    (update_dns_record rec0 new_ip).2.name = rec0.name ∧
    (update_dns_record rec0 new_ip).2.content = .A new_ip ∧
    (update_dns_record rec0 new_ip).2.ttl = none ∧
    (update_dns_record rec0 new_ip).2.proxied = none :=
  ⟨rfl, rfl, rfl, rfl, rfl⟩

/-- C2, counterexample: the body 999.1.1.1 yields the regex match
999.1.1.1, which is not a valid IPv4 address; in first-success mode the
pass aborts with a parse failure after one request instead of skipping to
the next source, and in quorum mode the invalid match contributes a vote. -/
theorem c2_counterexample :
    extract_ip_from_body "999.1.1.1" = some "999.1.1.1" ∧
    parseIpv4String "999.1.1.1" = none ∧
    determine_external_ip_without_verification
        [SourceResult.body "999.1.1.1", SourceResult.body "1.2.3.4"] =
      (.error (.parseFailure "999.1.1.1"), 1) ∧
    buildVotes [SourceResult.body "999.1.1.1"] = [("999.1.1.1", 1)] :=
  ⟨rfl, rfl, rfl, rfl⟩

/-- C2 (corrected): an invalid first match is not isolated to its source.
In first-success mode the resolver returns the parse failure immediately,
issuing no request to the remaining sources; in quorum mode the invalid
string is tallied as a vote under its own key. -/
theorem c2_invalid_match_not_isolated (pre rest : List SourceResult) (b s : String)
    (hpre : ∀ x ∈ pre, extractedString x = none)
    (hb : extract_ip_from_body b = some s)
    (hs : parseIpv4String s = none) :
    determine_external_ip_without_verification (pre ++ SourceResult.body b :: rest) =
      (.error (.parseFailure s), pre.length + 1) ∧
    s ∈ voteKeys (buildVotes (pre ++ SourceResult.body b :: rest)) := by
  constructor
  · have h := firstSuccess_found pre rest (SourceResult.body b) s hpre hb
    rw [h]
    unfold parse_ip
    rw [hs]
  · rw [buildVotes_key_mem]
    exact ⟨SourceResult.body b, by simp, hb⟩

/-- C2, witness for the corrected claim at a concrete input. -/
theorem c2_witness :
    ((∀ x ∈ [SourceResult.transportErr], extractedString x = none) ∧
      extract_ip_from_body "999.1.1.1" = some "999.1.1.1" ∧
      parseIpv4String "999.1.1.1" = none) ∧
    determine_external_ip_without_verification
        [SourceResult.transportErr, SourceResult.body "999.1.1.1"] =
      (.error (.parseFailure "999.1.1.1"), 2) ∧
    "999.1.1.1" ∈ voteKeys (buildVotes
        [SourceResult.transportErr, SourceResult.body "999.1.1.1"]) := by
  have h := c2_invalid_match_not_isolated [SourceResult.transportErr] []
    "999.1.1.1" "999.1.1.1" (by intro x hx; simp at hx; rw [hx]; rfl) rfl rfl
  exact ⟨⟨by intro x hx; simp at hx; rw [hx]; rfl, rfl, rfl⟩, h.1, h.2⟩

/-- C5, counterexample: the second source carries the valid dotted-quad
3.4.5.6, but the pass aborts at the first source, whose first match
256.0.0.1 fails to parse; the resolver does not return the value of the
first source with a valid address. -/
theorem c5_counterexample :
    extract_ip_from_body "3.4.5.6" = some "3.4.5.6" ∧
    parseIpv4String "3.4.5.6" = some ⟨3, 4, 5, 6⟩ ∧
    determine_external_ip_without_verification
        [SourceResult.body "256.0.0.1", SourceResult.body "3.4.5.6"] =
      (.error (.parseFailure "256.0.0.1"), 1) ∧
    (determine_external_ip_without_verification
        [SourceResult.body "256.0.0.1", SourceResult.body "3.4.5.6"]).1 ≠
      .ok ⟨3, 4, 5, 6⟩ := by
  refine ⟨rfl, rfl, rfl, ?_⟩
  intro hc
  have hc2 : (Except.error (ResolveError.parseFailure "256.0.0.1") :
      Except ResolveError Ipv4Addr) = .ok ⟨3, 4, 5, 6⟩ := hc
  exact Except.noConfusion hc2

/-- C5 (corrected): when every source before the first extracted match
fails by transport error or produces a match-free body, and that first
match parses as IPv4, first-success mode returns it having issued exactly
one request per source up to and including that one, so no later source
is queried. -/
theorem c5_first_success_short_circuit (pre rest : List SourceResult) (b s : String)
    (ip : Ipv4Addr)
    (hpre : ∀ x ∈ pre, extractedString x = none)
    (hb : extract_ip_from_body b = some s)
    (hs : parseIpv4String s = some ip) :
    determine_external_ip_without_verification (pre ++ SourceResult.body b :: rest) =
      (.ok ip, pre.length + 1) := by
  have h := firstSuccess_found pre rest (SourceResult.body b) s hpre hb
  rw [h]
  unfold parse_ip
  rw [hs]

/-- C5, witness for the corrected claim at a concrete input. -/
theorem c5_witness :
    ((∀ x ∈ [SourceResult.transportErr, SourceResult.body "<html>no address</html>"],
        extractedString x = none) ∧
      extract_ip_from_body "ip is 93.184.216.34 today" = some "93.184.216.34" ∧
      parseIpv4String "93.184.216.34" = some ⟨93, 184, 216, 34⟩) ∧
    determine_external_ip_without_verification
        [SourceResult.transportErr, SourceResult.body "<html>no address</html>",
         SourceResult.body "ip is 93.184.216.34 today", SourceResult.body "1.1.1.1"] =
      (.ok ⟨93, 184, 216, 34⟩, 3) := by
  have hpre : ∀ x ∈ [SourceResult.transportErr,
      SourceResult.body "<html>no address</html>"], extractedString x = none := by
    intro x hx
    rcases List.mem_cons.mp hx with h1 | hx2
    · rw [h1]; rfl
    · rcases List.mem_cons.mp hx2 with h2 | hx3
      · rw [h2]; rfl
      · simp at hx3
  have h := c5_first_success_short_circuit
    [SourceResult.transportErr, SourceResult.body "<html>no address</html>"]
    [SourceResult.body "1.1.1.1"] "ip is 93.184.216.34 today" "93.184.216.34"
    ⟨93, 184, 216, 34⟩ hpre rfl rfl
  exact ⟨⟨hpre, rfl, rfl⟩, h⟩

/-- C3 (confirmed): with at least two distinct keys and u16 arithmetic
free of wrapping, the decision fails with the no-quorum error exactly
when the top tally is below floor of total times 2 divided by 3, and at
or above that threshold the top candidate is the one passed on. The first
conjunct states that the selected top entry carries the maximal tally. -/
theorem c3_quorum_threshold (p q : String × Nat) (rest : List (String × Nat))
    (htotal : (((p :: q :: rest).map fun r => r.2).sum) * 2 < 65536) :
    (∀ r ∈ p :: q :: rest, r.2 ≤ (topVote p (q :: rest)).2) ∧
    (decideVotes (p :: q :: rest) = .error .noQuorum ↔
      (topVote p (q :: rest)).2 < (((p :: q :: rest).map fun r => r.2).sum) * 2 / 3) ∧
    ((((p :: q :: rest).map fun r => r.2).sum) * 2 / 3 ≤ (topVote p (q :: rest)).2 →
      decideVotes (p :: q :: rest) = parse_ip (topVote p (q :: rest)).1) := by
  have hmod1 : (((p :: q :: rest).map fun r => r.2).sum) % 65536 =
      ((p :: q :: rest).map fun r => r.2).sum := Nat.mod_eq_of_lt (by omega)
  have hmod2 : (((p :: q :: rest).map fun r => r.2).sum) * 2 % 65536 =
      (((p :: q :: rest).map fun r => r.2).sum) * 2 := Nat.mod_eq_of_lt htotal
  have hred := decideVotes_cons_cons p q rest
  rw [hmod1, hmod2] at hred
  refine ⟨topVote_le p (q :: rest), ?_, ?_⟩
  · constructor
    · intro hdec
      by_contra hge
      push_neg at hge
      rw [hred, if_pos hge] at hdec
      exact parse_ip_ne_noQuorum _ hdec
    · intro hlt
      rw [hred, if_neg (by omega)]
  · intro hge
    rw [hred, if_pos hge]

/-- C3, witness: tallies 3 versus 1 (total 4, threshold 2) accept the
top candidate, and tallies 2 versus 2 (total 4, threshold 2, top tally 2)
are accepted as well. -/
theorem c3_witness :
    ((([("203.0.113.1", 3), ("203.0.113.2", 1)].map fun r => r.2).sum) * 2 < 65536 ∧
      decideVotes [("203.0.113.1", 3), ("203.0.113.2", 1)] = .ok ⟨203, 0, 113, 1⟩) ∧
    ((([("203.0.113.5", 2), ("203.0.113.6", 2)].map fun r => r.2).sum) * 2 < 65536 ∧
      decideVotes [("203.0.113.5", 2), ("203.0.113.6", 2)] = .ok ⟨203, 0, 113, 6⟩) := by
  constructor
  · refine ⟨by norm_num, ?_⟩
    have h := (c3_quorum_threshold ("203.0.113.1", 3) ("203.0.113.2", 1) []
      (by norm_num)).2.2 (by decide)
    rw [h]
    rfl
  · refine ⟨by norm_num, ?_⟩
    have h := (c3_quorum_threshold ("203.0.113.5", 2) ("203.0.113.6", 2) []
      (by norm_num)).2.2 (by decide)
    rw [h]
    rfl

/-- C4, counterexample: the same tallies in two iteration orders, a
permutation of each other, decide different winners: the decision step
selects the last maximal entry of the iteration order, and the iteration
order of the hash map is not determined by the tallies. -/
theorem c4_counterexample :
    List.Perm [("1.1.1.1", 2), ("2.2.2.2", 2)] [("2.2.2.2", 2), ("1.1.1.1", 2)] ∧
    decideVotes [("1.1.1.1", 2), ("2.2.2.2", 2)] = .ok ⟨2, 2, 2, 2⟩ ∧
    decideVotes [("2.2.2.2", 2), ("1.1.1.1", 2)] = .ok ⟨1, 1, 1, 1⟩ ∧
    decideVotes [("1.1.1.1", 2), ("2.2.2.2", 2)] ≠
      decideVotes [("2.2.2.2", 2), ("1.1.1.1", 2)] := by
  refine ⟨List.Perm.swap _ _ _, rfl, rfl, ?_⟩
  intro hc
  have hc2 : (Except.ok (⟨2, 2, 2, 2⟩ : Ipv4Addr) : Except ResolveError Ipv4Addr) =
      .ok ⟨1, 1, 1, 1⟩ := hc
  injection hc2 with hc3
  exact absurd hc3 (by decide)

/-- C4 (corrected): the decision step is a deterministic function of the
iteration order, and whenever one entry carries the strictly highest
tally the chosen winner does not depend on that order: any two iteration
orders of the same tallies decide identically. Ties for the highest tally
are the one case where the winner can differ between runs. -/
theorem c4_unique_max_deterministic (l1 l2 : List (String × Nat)) (t : String × Nat)
    (hperm : l1.Perm l2) (hmem : t ∈ l1)
    (hmax : ∀ q ∈ l1, q ≠ t → q.2 < t.2) :
    decideVotes l1 = decideVotes l2 := by
  cases l1 with
  | nil =>
    have h2 : l2 = [] := List.perm_nil.mp hperm.symm
    rw [h2]
  | cons p l1t =>
    cases l1t with
    | nil =>
      have h2 : l2 = [p] := List.perm_singleton.mp hperm.symm
      rw [h2]
    | cons q rest =>
      cases l2 with
      | nil =>
        have hl := hperm.length_eq
        simp at hl
      | cons x l2t =>
        cases l2t with
        | nil =>
          have hl := hperm.length_eq
          simp at hl
        | cons y rs =>
          have htop1 : topVote p (q :: rest) = t :=
            topVote_unique p t (q :: rest) hmem hmax
          have hmem2 : t ∈ x :: y :: rs := hperm.subset hmem
          have hmax2 : ∀ r ∈ x :: y :: rs, r ≠ t → r.2 < t.2 :=
            fun r hr hrt => hmax r (hperm.symm.subset hr) hrt
          have htop2 : topVote x (y :: rs) = t :=
            topVote_unique x t (y :: rs) hmem2 hmax2
          have hsum : ((p :: q :: rest).map fun r => r.2).sum =
              ((x :: y :: rs).map fun r => r.2).sum :=
            (hperm.map fun r => r.2).sum_eq
          rw [decideVotes_cons_cons, decideVotes_cons_cons, htop1, htop2, hsum]

/-- C4, witness for the corrected claim at a concrete input with a unique
maximal tally. -/
theorem c4_witness :
    (List.Perm [("198.51.100.1", 3), ("198.51.100.2", 1)]
        [("198.51.100.2", 1), ("198.51.100.1", 3)] ∧
      ("198.51.100.1", 3) ∈ [("198.51.100.1", 3), ("198.51.100.2", 1)]) ∧
    decideVotes [("198.51.100.1", 3), ("198.51.100.2", 1)] =
      decideVotes [("198.51.100.2", 1), ("198.51.100.1", 3)] := by
  refine ⟨⟨List.Perm.swap _ _ _, by simp⟩, ?_⟩
  exact c4_unique_max_deterministic _ _ ("198.51.100.1", 3) (List.Perm.swap _ _ _)
    (by simp) (by decide)

/-- C6 (confirmed): when every source fails, by transport error or by a
body from which no candidate is extracted, both modes end with the
all-sources-failed error. -/
theorem c6_all_sources_failed (outcomes : List SourceResult)
    (order : List (String × Nat))
    (hfail : ∀ o ∈ outcomes, extractedString o = none)
    (horder : order.Perm (buildVotes outcomes)) :
    (determine_external_ip_without_verification outcomes).1 = .error .allSourcesFailed ∧
    (determine_external_ip_with_verification outcomes order).1 = .error .allSourcesFailed := by
  constructor
  · have h := firstSuccessGo_append_skip outcomes [] 0 hfail
    rw [List.append_nil] at h
    unfold determine_external_ip_without_verification
    rw [h]
    rfl
  · have hnil : buildVotes outcomes = [] := buildVotes_all_none outcomes hfail
    rw [hnil] at horder
    have horder2 : order = [] := List.perm_nil.mp horder
    rw [horder2]
    rfl

/-- C6, witness at a concrete input: one transport failure and one body
with no dotted-quad match. -/
theorem c6_witness :
    ((∀ o ∈ [SourceResult.transportErr, SourceResult.body "<html>busy</html>"],
        extractedString o = none) ∧
      ([] : List (String × Nat)).Perm
        (buildVotes [SourceResult.transportErr, SourceResult.body "<html>busy</html>"])) ∧
    (determine_external_ip_without_verification
        [SourceResult.transportErr, SourceResult.body "<html>busy</html>"]).1 =
      .error .allSourcesFailed ∧
    (determine_external_ip_with_verification
        [SourceResult.transportErr, SourceResult.body "<html>busy</html>"] []).1 =
      .error .allSourcesFailed := by
  have hfail : ∀ o ∈ [SourceResult.transportErr, SourceResult.body "<html>busy</html>"],
      extractedString o = none := by
    intro o ho
    rcases List.mem_cons.mp ho with h1 | ho2
    · rw [h1]; rfl
    · rcases List.mem_cons.mp ho2 with h2 | ho3
      · rw [h2]; rfl
      · simp at ho3
  have hperm : ([] : List (String × Nat)).Perm
      (buildVotes [SourceResult.transportErr, SourceResult.body "<html>busy</html>"]) :=
    List.Perm.nil
  have h := c6_all_sources_failed
    [SourceResult.transportErr, SourceResult.body "<html>busy</html>"] [] hfail hperm
  exact ⟨⟨hfail, hperm⟩, h.1, h.2⟩

/-- C7, counterexample: two bodies carrying texts that denote the same
address, differing only in leading zeros, are tallied under two distinct
keys, not one. -/
theorem c7_counterexample :
    specDottedQuadValue "127.0.0.1" = some ⟨127, 0, 0, 1⟩ ∧
    specDottedQuadValue "127.000.000.001" = some ⟨127, 0, 0, 1⟩ ∧
    buildVotes [SourceResult.body "127.0.0.1", SourceResult.body "127.000.000.001"] =
      [("127.0.0.1", 1), ("127.000.000.001", 1)] :=
  ⟨rfl, rfl, rfl⟩

/-- C7 (corrected): throughout a quorum pass the tally is keyed by the
exact extracted text: the key list is duplicate-free and a text is a key
exactly when some source extracted it verbatim, so differently spelled
texts for one address form distinct keys. -/
theorem c7_tally_keyed_by_exact_text (outcomes : List SourceResult) :
    (voteKeys (buildVotes outcomes)).Nodup ∧
    ∀ s, s ∈ voteKeys (buildVotes outcomes) ↔
      ∃ o ∈ outcomes, extractedString o = some s :=
  ⟨buildVotes_keys_nodup outcomes, fun s => buildVotes_key_mem outcomes s⟩

/-- C8 (confirmed): the update written by a run carries the resolved
address as A content, and any record whose content is that A value makes
the next run with the same resolved address a no-op under the exact
equality of the guard, in dry-run mode or not; no write is attempted. -/
theorem c8_reconciler_idempotent (rec0 : DnsRecord) (ip : Ipv4Addr) (d : Bool) :
    (update_dns_record rec0 ip).2.content = .A ip ∧
    ∀ rec1 : DnsRecord, rec1.content = .A ip →
      reconcileAction rec1 ip d = .noChange ∧
      writeCount (reconcileAction rec1 ip d) = 0 := by
  refine ⟨rfl, ?_⟩
  intro rec1 h1
  have hact : reconcileAction rec1 ip d = .noChange := by
    unfold reconcileAction recordIsCurrent
    rw [h1]
    simp
  exact ⟨hact, by rw [hact]; rfl⟩

/-- C8, witness: the first run overwrites a stale record; feeding the
written A content back as the published record makes the second run a
no-op. -/
theorem c8_witness :
    (update_dns_record ⟨"rec1", "host.example.com", .A ⟨192, 0, 2, 10⟩, 300, false⟩
        ⟨198, 51, 100, 7⟩).2.content = .A ⟨198, 51, 100, 7⟩ ∧
    reconcileAction ⟨"rec1", "host.example.com", .A ⟨198, 51, 100, 7⟩, 300, false⟩
        ⟨198, 51, 100, 7⟩ false = .noChange := by
  have h := c8_reconciler_idempotent
    ⟨"rec1", "host.example.com", .A ⟨192, 0, 2, 10⟩, 300, false⟩ ⟨198, 51, 100, 7⟩ false
  exact ⟨h.1, (h.2 ⟨"rec1", "host.example.com", .A ⟨198, 51, 100, 7⟩, 300, false⟩ rfl).1⟩

/-- C9 (confirmed): with a timeout of zero the run stops at the guard at
the top of main with the configuration error, and the request counter is
zero: no Cloudflare request and no IP service request is issued, whatever
the oracles hold. -/
theorem c9_zero_timeout_rejected (options : Options) (zoneResponse : List Zone)
    (recordsResponse : List DnsRecord) (outcomes : List SourceResult)
    (order : List (String × Nat))
    (h : options.ip_timeout = 0) :
    mainRun options zoneResponse recordsResponse outcomes order =
      (.error "A timeout of 0 seconds would mean no request could ever work.", 0) := by
  unfold mainRun
  rw [h]
  simp

/-- C9, witness: a full configuration with timeout zero and responsive
oracles still produces the configuration error and zero requests. -/
theorem c9_witness :
    mainRun ⟨false, 0, false, some "zone1", none, "example.com"⟩
        [⟨"zone1", "example.com"⟩]
        [⟨"rec1", "example.com", .A ⟨192, 0, 2, 1⟩, 1, false⟩]
        [SourceResult.body "192.0.2.5"] [] =
      (.error "A timeout of 0 seconds would mean no request could ever work.", 0) :=
  c9_zero_timeout_rejected ⟨false, 0, false, some "zone1", none, "example.com"⟩
    [⟨"zone1", "example.com"⟩] [⟨"rec1", "example.com", .A ⟨192, 0, 2, 1⟩, 1, false⟩]
    [SourceResult.body "192.0.2.5"] [] rfl

/-- C10 (confirmed): record lookup returns the first record of the
response whose name equals the requested name, whatever its type; the
not-found error occurs exactly when no record of any type matches the
name; and a fetched record that is not an A record holding the resolved
address is overwritten, outside dry-run, by an update carrying A content
with the resolved address. -/
theorem c10_lookup_by_name_ignores_type (recordsResponse : List DnsRecord)
    (record_name : String) :
    (∀ r : DnsRecord,
      recordsResponse.find? (fun x => x.name == record_name) = some r →
        fetch_current_dns_record recordsResponse record_name = .ok r) ∧
    (fetch_current_dns_record recordsResponse record_name =
        .error ("Could not find A record for " ++ record_name) ↔
      ∀ r ∈ recordsResponse, r.name ≠ record_name) ∧
    (∀ (rec1 : DnsRecord) (ip : Ipv4Addr),
      recordIsCurrent rec1.content ip = false →
        reconcileAction rec1 ip false =
          .updated rec1.id ⟨rec1.name, .A ip, none, none⟩) := by
  refine ⟨?_, ?_, ?_⟩
  · intro r h
    unfold fetch_current_dns_record
    rw [h]
  · unfold fetch_current_dns_record
    cases hf : recordsResponse.find? fun x => x.name == record_name with
    | some r =>
      constructor
      · intro hc
        exact absurd hc (fun hc2 => Except.noConfusion hc2)
      · intro hall
        have hr1 : r ∈ recordsResponse := List.mem_of_find?_eq_some hf
        have hr2 := List.find?_some hf
        exact absurd (beq_iff_eq.mp hr2) (hall r hr1)
    | none =>
      constructor
      · intro _
        intro r hr
        have := List.find?_eq_none.mp hf r hr
        exact fun he => this (beq_iff_eq.mpr he)
      · intro _
        rfl
  · intro rec1 ip h
    unfold reconcileAction
    rw [h]
    rfl

/-- C10, witness: an AAAA record with the requested name is selected
ahead of an A record, is treated as stale, and is overwritten with A
content; a name with no record of any type yields the not-found error. -/
theorem c10_witness :
    fetch_current_dns_record
        [⟨"r7", "host.example.com", .AAAA "2001:db8::1", 300, false⟩,
         ⟨"r8", "host.example.com", .A ⟨192, 0, 2, 44⟩, 300, false⟩]
        "host.example.com" =
      .ok ⟨"r7", "host.example.com", .AAAA "2001:db8::1", 300, false⟩ ∧
    recordIsCurrent (DnsContent.AAAA "2001:db8::1") ⟨192, 0, 2, 44⟩ = false ∧
    reconcileAction ⟨"r7", "host.example.com", .AAAA "2001:db8::1", 300, false⟩
        ⟨192, 0, 2, 44⟩ false =
      .updated "r7" ⟨"host.example.com", .A ⟨192, 0, 2, 44⟩, none, none⟩ ∧
    fetch_current_dns_record
        [⟨"r7", "host.example.com", .AAAA "2001:db8::1", 300, false⟩]
        "absent.example.com" =
      .error ("Could not find A record for " ++ "absent.example.com") := by
  have h1 := (c10_lookup_by_name_ignores_type
    [⟨"r7", "host.example.com", .AAAA "2001:db8::1", 300, false⟩,
     ⟨"r8", "host.example.com", .A ⟨192, 0, 2, 44⟩, 300, false⟩]
    "host.example.com").1
    ⟨"r7", "host.example.com", .AAAA "2001:db8::1", 300, false⟩ (by decide)
  have h3 := (c10_lookup_by_name_ignores_type
    [⟨"r7", "host.example.com", .AAAA "2001:db8::1", 300, false⟩]
    "absent.example.com").2.1.mpr (by decide)
  have h2 := (c10_lookup_by_name_ignores_type
    [⟨"r7", "host.example.com", .AAAA "2001:db8::1", 300, false⟩]
    "host.example.com").2.2
    ⟨"r7", "host.example.com", .AAAA "2001:db8::1", 300, false⟩ ⟨192, 0, 2, 44⟩ rfl
  exact ⟨h1, rfl, h2, h3⟩

end CloudflareDyndns
